import Mathlib

/-!
Verification development for the AutoGun repository.

The file shallowly embeds the state-tracking and rule-evaluation core of the
program (src/core/macro_engine.py, src/core/memory_reader.py,
src/core/trigger_bot.py) as executable Lean definitions, and proves the
testable properties of the specification against them.

Modelling conventions:
* Python dicts that are iterated in insertion order are embedded as
  association lists (`List (key × value)`); `List.lookup` is dict lookup.
* Machine integers read from process memory (clip, reserve, addresses,
  pointer offsets) are embedded as `Int`; weapon-slot identifiers and list
  indices are `Nat`.
* Fallible code paths (an uncaught Python `IndexError`, a failed memory
  read) are embedded with `Option`: `none` models the exceptional outcome.
* Methods that mutate `self` are embedded as functions from a state record
  to a new state record (plus any emitted actions / return value).
-/

namespace AutoGun

namespace MacroEngine

/-- Rotation counter entry of `MacroEngine.rule_rotation`:
the Python dict `{'current_rule_idx': _, 'counter': _}`. -/
structure Rotation where
  currentRuleIdx : Nat
  counter : Nat
deriving DecidableEq

/-- One swap rule of a preset. In the source a rule is a dict; the optional
keys are read with `dict.get` and a default, so the record is total:
`check_ammo` defaults to `true`, `quick_switch` to `false`, `fallback_to`
to `0` (meaning: no fallback), `fallback_quick_switch` to `false`,
`repeat_count` to `1`. `from` is a Lean keyword, hence `fromSlot`/`toSlot`
for the `from`/`to` keys. -/
structure SwapRule where
  fromSlot : Nat
  toSlot : Nat
  checkAmmo : Bool := true
  quickSwitch : Bool := false
  fallbackTo : Nat := 0
  fallbackQuickSwitch : Bool := false
  repeatCount : Nat := 1
deriving DecidableEq

/-- Ammo snapshot `{weapon_id: (clip, reserve)}`, kept as an association
list to preserve the dict's insertion order (iteration order matters in
`_detect_current_weapon`). -/
abbrev AmmoData := List (Nat × Int × Int)

/-- Mutable state of `MacroEngine` (the fields of `self` that the embedded
methods read or write). A preset is embedded as its `'rules'` list, which
is the only key the engine reads from a preset dict. -/
structure MacroState where
  enabled : Bool
  currentPreset : Option String
  presets : List (String × List SwapRule)
  lastAmmo : AmmoData
  lastWeaponId : Nat
  ruleRotation : List (Nat × Rotation)
deriving DecidableEq

/-- Python truthiness of `self.current_preset`: `None` and the empty
string are falsy. -/
def presetTruthy : Option String → Bool
  | none => false
  | some s => !(s == "")

/-- Dict update `self.rule_rotation[w] = rot` on an association list. -/
def upsert (w : Nat) (rot : Rotation) (l : List (Nat × Rotation)) :
    List (Nat × Rotation) :=
  (w, rot) :: l.eraseP (fun x => x.1 == w)

/-- Replace the rotation entry of one weapon in the engine state. -/
def putCursor (st : MacroState) (w : Nat) (rot : Rotation) : MacroState :=
  { st with ruleRotation := upsert w rot st.ruleRotation }

/-- Rotation cursor that `_handle_shot` works with for `w`: the stored
entry if present, else the freshly created `{'current_rule_idx': 0,
'counter': 0}`. -/
def effCursor (st : MacroState) (w : Nat) : Rotation :=
  (st.ruleRotation.lookup w).getD ⟨0, 0⟩

/-- Embeds `MacroEngine._has_ammo`: clip (only!) of the weapon in the last
cached snapshot must be positive; a slot absent from the cache has no
ammo. -/
def has_ammo (st : MacroState) (weaponId : Nat) : Bool :=
  match st.lastAmmo.lookup weaponId with
  | none => false
  | some (clip, _) => decide (0 < clip)

/-- Embeds `MacroEngine._was_shot_fired`: the weapon must be present in
both the new snapshot and the cached one, with a strictly smaller clip in
the new one. -/
def was_shot_fired (st : MacroState) (weaponId : Nat)
    (ammoData : AmmoData) : Bool :=
  match ammoData.lookup weaponId, st.lastAmmo.lookup weaponId with
  | some (clip, _), some (oldClip, _) => decide (clip < oldClip)
  | _, _ => false

/-- Embeds `MacroEngine._detect_current_weapon`: scan the new snapshot in
insertion order; the first weapon whose clip strictly decreased relative
to the cache wins; otherwise fall back to `self.last_weapon_id`. -/
def detect_current_weapon (st : MacroState) : AmmoData → Nat
  | [] => st.lastWeaponId
  | (w, clip, _) :: rest =>
    match st.lastAmmo.lookup w with
    | some (oldClip, _) =>
      if clip < oldClip then w else detect_current_weapon st rest
    | none => detect_current_weapon st rest

/-- Rules of the active preset as `_handle_shot` fetches them, `none` when
`not self.current_preset or self.current_preset not in self.presets`. -/
def presetRules (st : MacroState) : Option (List SwapRule) :=
  match st.currentPreset with
  | none => none
  | some s => if s = "" then none else st.presets.lookup s

/-- Rules of `rules` whose `from` slot equals the fired weapon, in preset
definition order (the `matching_rules` list comprehension). -/
def matchingRules (rules : List SwapRule) (fromWeapon : Nat) :
    List SwapRule :=
  rules.filter (fun r => r.fromSlot == fromWeapon)

/-- Argument pair of the one `_switch_weapon` call a shot can emit:
target weapon and effective quick-switch flag. -/
abbrev SwapAction := Nat × Bool

/-- Swap-emitting tail of `_handle_shot` (the code from the
`self._switch_weapon` call on): emit `(toW, qs)`, bump the counter and
advance the cursor circularly once the current rule's `repeat_count` is
exhausted. -/
def doSwap (st : MacroState) (w : Nat) (n : Nat) (rot : Rotation)
    (rule : SwapRule) (toW : Nat) (qs : Bool) :
    MacroState × Option SwapAction :=
  let counter := rot.counter + 1
  let rot' : Rotation :=
    if rule.repeatCount ≤ counter then ⟨(rot.currentRuleIdx + 1) % n, 0⟩
    else ⟨rot.currentRuleIdx, counter⟩
  (putCursor st w rot', some (toW, qs))

/-- Embeds `MacroEngine._handle_shot`. The result is `none` exactly when
the source would raise an uncaught `IndexError`
(`matching_rules[rotation['current_rule_idx']]` with a stale out-of-range
cursor); every ordinary return path yields `some (newState, emitted)`. -/
def handle_shot (st : MacroState) (fromWeapon : Nat) :
    Option (MacroState × Option SwapAction) :=
  match presetRules st with
  | none => some (st, none)
  | some rules =>
    let matching := matchingRules rules fromWeapon
    if matching.isEmpty then some (st, none)
    else
      let rot := effCursor st fromWeapon
      match matching.get? rot.currentRuleIdx with
      | none => none
      | some rule =>
        let n := matching.length
        if rule.checkAmmo && !has_ammo st rule.toSlot then
          if 0 < rule.fallbackTo then
            if !has_ammo st rule.fallbackTo then
              some (putCursor st fromWeapon
                ⟨(rot.currentRuleIdx + 1) % n, 0⟩, none)
            else
              some (doSwap st fromWeapon n rot rule rule.fallbackTo
                rule.fallbackQuickSwitch)
          else
            some (putCursor st fromWeapon
              ⟨(rot.currentRuleIdx + 1) % n, 0⟩, none)
        else
          some (doSwap st fromWeapon n rot rule rule.toSlot rule.quickSwitch)

/-- Embeds `MacroEngine.update`: early-out when disabled or no truthy
active preset; determine the current weapon (explicit argument wins, else
clip-decrease detection); run `_handle_shot` when a shot is detected; then
unconditionally refresh `last_ammo` and `last_weapon_id`. `none` models an
`IndexError` escaping from `_handle_shot` through `update`. -/
def update (st : MacroState) (ammoData : AmmoData)
    (currentWeapon : Option Nat) : Option MacroState :=
  if !st.enabled || !presetTruthy st.currentPreset then some st
  else
    let cw := currentWeapon.getD (detect_current_weapon st ammoData)
    match (if was_shot_fired st cw ammoData then handle_shot st cw
           else some (st, none)) with
    | none => none
    | some (st1, _) =>
      some { st1 with lastAmmo := ammoData, lastWeaponId := cw }

/-- Error values `set_active_preset` could have reported. The source
function reports none of them: both of its branches end in Python's
implicit `return None`. -/
inductive MacroError where
  | notFound (name : String)
deriving DecidableEq

/-- Embeds `MacroEngine.set_active_preset`. The second component is the
Python return value: `none` (i.e. `None`) on both the found branch (which
sets the preset and clears `rule_rotation`) and the not-found branch
(which only logs a warning and leaves the state untouched). -/
def set_active_preset (st : MacroState) (name : String) :
    MacroState × Option MacroError :=
  if (st.presets.lookup name).isSome then
    ({ st with currentPreset := some name, ruleRotation := [] }, none)
  else
    (st, none)

/-- Iterate `_handle_shot` for `n` consecutive detected shots from weapon
`w`, collecting the emitted swap actions in order. `none` propagates an
`IndexError` from any shot. -/
def runShots (st : MacroState) (w : Nat) : Nat → Option (MacroState × List SwapAction)
  | 0 => some (st, [])
  | n + 1 =>
    (handle_shot st w).bind fun p =>
      (runShots p.1 w n).map fun q => (q.1, p.2.toList ++ q.2)

/-- Total number of shots in one full rotation cycle of a rule group. -/
def totalRepeats (l : List SwapRule) : Nat :=
  (l.map (fun r => r.repeatCount)).sum

/-- Swap actions one full cycle is expected to emit: each rule in
definition order, `repeat_count` consecutive times. -/
def cycleActions : List SwapRule → List SwapAction
  | [] => []
  | r :: rest =>
    List.replicate r.repeatCount (r.toSlot, r.quickSwitch) ++ cycleActions rest

/-- Targets of the swaps emitted by `n` consecutive shots from `w`. -/
def shotTargets (st : MacroState) (w : Nat) (n : Nat) :
    Option (List Nat) :=
  (runShots st w n).map fun p => p.2.map Prod.fst

/-- Rule group of the rotation scenario: two rules for slot 1,
`{to: 2, repeat_count: 2}` and `{to: 4, repeat_count: 1}`. -/
def demoRules : List SwapRule :=
  [⟨1, 2, true, false, 0, false, 2⟩, ⟨1, 4, true, false, 0, false, 1⟩]

/-- Engine state of the rotation scenario, with ammo available for every
slot involved. -/
def demoState : MacroState :=
  { enabled := true
    currentPreset := some "main"
    presets := [("main", demoRules)]
    lastAmmo := [(1, 10, 0), (2, 5, 0), (4, 5, 0)]
    lastWeaponId := 1
    ruleRotation := [] }

/-- Rule of the fallback scenario: `{from: 1, to: 5, check_ammo: true,
fallback_to: 2, fallback_quick_switch: true, repeat_count: 2}`. -/
def fbRule : SwapRule := ⟨1, 5, true, false, 2, true, 2⟩

/-- Engine state of the fallback scenario: clip of slot 5 is 0, clip of
the fallback slot 2 is 5. -/
def fbState : MacroState :=
  { enabled := true
    currentPreset := some "fb"
    presets := [("fb", [fbRule])]
    lastAmmo := [(1, 8, 0), (5, 0, 3), (2, 5, 0)]
    lastWeaponId := 1
    ruleRotation := [] }

/-- Rule of the abort scenario: ammo-checked, no fallback configured. -/
def abortRule : SwapRule := ⟨1, 5, true, false, 0, false, 3⟩

/-- Engine state of the abort scenario: clip of slot 5 is 0 and no
fallback is configured. -/
def abortState : MacroState :=
  { enabled := true
    currentPreset := some "ab"
    presets := [("ab", [abortRule])]
    lastAmmo := [(1, 8, 0), (5, 0, 3)]
    lastWeaponId := 1
    ruleRotation := [] }

/-- Rule of the absent-slot scenario: ammo-checked swap to slot 6, which
never appears in any snapshot. -/
def ghostRule : SwapRule := ⟨1, 6, true, false, 0, false, 1⟩

/-- Engine state of the absent-slot scenario: slot 6 is missing from the
last snapshot entirely. -/
def ghostState : MacroState :=
  { enabled := true
    currentPreset := some "gh"
    presets := [("gh", [ghostRule])]
    lastAmmo := [(1, 8, 0)]
    lastWeaponId := 1
    ruleRotation := [] }

/-- Engine state used to exercise `set_active_preset`, with a non-trivial
rotation cursor already present. -/
def presetDemoState : MacroState :=
  { enabled := true
    currentPreset := some "alpha"
    presets := [("alpha", demoRules)]
    lastAmmo := [(1, 10, 0)]
    lastWeaponId := 1
    ruleRotation := [(1, ⟨1, 3⟩)] }

/-- Result state of the cache-refresh scenario: `update` on `demoState`
with a fresh snapshot where slot 1 lost one clip round. -/
def demoSnapshot : AmmoData := [(1, 9, 0), (2, 5, 0), (4, 5, 0)]

end MacroEngine

namespace MemoryReader

/-- Loop body of `MemoryReader.follow_pointer_chain`: starting from an
address, for each offset read a pointer at the current address (abort with
`None` when `read_pointer` fails, i.e. returns `None`), then add the
offset. The final address is returned without a trailing dereference.
`read_pointer` is passed in as a function modelling the attached process
memory. -/
def chainWalk (read_pointer : Int → Option Int) :
    Int → List Int → Option Int
  | addr, [] => some addr
  | addr, off :: rest =>
    match read_pointer addr with
    | none => none
    | some p => chainWalk read_pointer (p + off) rest

/-- Embeds `MemoryReader.follow_pointer_chain`: `None` when not connected
or no base offset is configured, else walk the chain from
`module_base + weapon_slots_base`. -/
def follow_pointer_chain (read_pointer : Int → Option Int)
    (connected : Bool) (moduleBase : Int) (weaponSlotsBase : Option Int)
    (pointerOffsets : List Int) : Option Int :=
  if !connected then none
  else
    match weaponSlotsBase with
    | none => none
    | some b => chainWalk read_pointer (moduleBase + b) pointerOffsets

/-- Modelled from the spec: the claimed resolution walk, which aborts not
only when a pointer is unreadable but also as soon as a successfully read
pointer is null (0). This is the comparison definition for the refinement
claim about `follow_pointer_chain`; the loop body differs from `chainWalk`
exactly in the null check. -/
def chainWalkNullAborting (read_pointer : Int → Option Int) :
    Int → List Int → Option Int
  | addr, [] => some addr
  | addr, off :: rest =>
    match read_pointer addr with
    | none => none
    | some p =>
      if p = 0 then none
      else chainWalkNullAborting read_pointer (p + off) rest

/-- Modelled from the spec: `follow_pointer_chain` as the claim describes
it, with the null-aborting walk. -/
def resolveChainClaimed (read_pointer : Int → Option Int)
    (connected : Bool) (moduleBase : Int) (weaponSlotsBase : Option Int)
    (pointerOffsets : List Int) : Option Int :=
  if !connected then none
  else
    match weaponSlotsBase with
    | none => none
    | some b =>
      chainWalkNullAborting read_pointer (moduleBase + b) pointerOffsets

/-- Memory in which every pointer read succeeds and yields null. -/
def readPZero : Int → Option Int := fun _ => some 0

/-- Memory in which every pointer read succeeds and yields 1 (never
null). -/
def readPOne : Int → Option Int := fun _ => some 1

end MemoryReader

namespace TriggerBot

/-- One synthesized mouse event posted to the game window. `isDown` is
`true` for `WM_LBUTTONDOWN`, `false` for `WM_LBUTTONUP`. `delayBefore` is
the reaction delay slept immediately before posting the event:
`_press_mouse` sleeps a sampled delay, `_release_mouse` sleeps nothing
(recorded as 0). -/
structure TEvent where
  isDown : Bool
  delayBefore : ℚ
deriving DecidableEq

/-- Mutable state of `TriggerBot` relevant to its event behaviour. -/
structure TriggerState where
  enabled : Bool
  isHolding : Bool
  lastState : Bool
deriving DecidableEq

/-- Embeds `TriggerBot._press_mouse`. `windowOk` tells whether a valid
game window was available (possibly after the re-find); without it the
method returns having emitted nothing and without touching `is_holding`.
`delay` is the value `random.uniform(reaction_delay_min,
reaction_delay_max)` sampled for this call, modelled as an input. -/
def press_mouse (st : TriggerState) (windowOk : Bool) (delay : ℚ) :
    TriggerState × List TEvent :=
  if windowOk then ({ st with isHolding := true }, [⟨true, delay⟩])
  else (st, [])

/-- Embeds `TriggerBot._release_mouse`: posts the button-up immediately
(no sleep) when the window is valid; otherwise emits nothing and leaves
`is_holding` untouched. -/
def release_mouse (st : TriggerState) (windowOk : Bool) :
    TriggerState × List TEvent :=
  if windowOk then ({ st with isHolding := false }, [⟨false, 0⟩])
  else (st, [])

/-- Embeds `TriggerBot.update`. `reading` is the outcome of the
`read_crosshair_on_enemy` call: `none` models the call raising (the
broad `except` then leaves all state untouched — in the source as shipped
this in fact happens on every call, because `update` passes a
`debug_mode` keyword the method does not accept), `some b` a successful
boolean read. On a successful read the press/release branch runs and
`last_state` is updated unconditionally. -/
def update (st : TriggerState) (reading : Option Bool) (windowOk : Bool)
    (delay : ℚ) : TriggerState × List TEvent :=
  if !st.enabled then (st, [])
  else
    match reading with
    | none => (st, [])
    | some onEnemy =>
      let pr :=
        if onEnemy && !st.isHolding then press_mouse st windowOk delay
        else if !onEnemy && st.isHolding then release_mouse st windowOk
        else (st, [])
      ({ pr.1 with lastState := onEnemy }, pr.2)

/-- Embeds `TriggerBot.disable`: force a release first when currently
holding, then clear `enabled`. -/
def disable (st : TriggerState) (windowOk : Bool) :
    TriggerState × List TEvent :=
  let pr := if st.isHolding then release_mouse st windowOk else (st, [])
  ({ pr.1 with enabled := false }, pr.2)

/-- Embeds `TriggerBot.enable`: succeeds only when the game window is
found; note that `is_holding` is not reset. -/
def enable (st : TriggerState) (windowFound : Bool) :
    TriggerState × List TEvent :=
  if windowFound then ({ st with enabled := true }, []) else (st, [])

/-- One external interaction with the trigger bot: a poller tick
(`update`) with its read outcome, window validity and sampled delay, or a
`disable`/`enable` call. -/
inductive TOp where
  | tick (reading : Option Bool) (windowOk : Bool) (delay : ℚ)
  | disable (windowOk : Bool)
  | enable (windowFound : Bool)
deriving DecidableEq

/-- Apply one interaction. -/
def applyOp (st : TriggerState) : TOp → TriggerState × List TEvent
  | .tick r wOk d => update st r wOk d
  | .disable wOk => disable st wOk
  | .enable f => enable st f

/-- Run a whole interaction sequence, concatenating the emitted mouse
events in order. -/
def runOps (st : TriggerState) : List TOp → TriggerState × List TEvent
  | [] => (st, [])
  | op :: rest =>
    let pr := applyOp st op
    let qr := runOps pr.1 rest
    (qr.1, pr.2 ++ qr.2)

/-- Strict down/up alternation of an event list, starting from a given
holding parity: when not holding the next event must be a button-down,
when holding it must be a button-up. -/
def altFrom : Bool → List TEvent → Bool
  | _, [] => true
  | h, e :: rest => (e.isDown == !h) && altFrom e.isDown rest

/-- Holding parity after an event list. -/
def altEnd : Bool → List TEvent → Bool
  | h, [] => h
  | _, e :: rest => altEnd e.isDown rest

/-- The sampled delay of a tick lies within the reaction-delay bounds
(`random.uniform` guarantees this for the source). -/
def opDelayOk (lo hi : ℚ) : TOp → Bool
  | .tick _ _ d => decide (lo ≤ d) && decide (d ≤ hi)
  | _ => true

/-- Every button-down of the list was delayed by a value within the
bounds. -/
def downDelaysOk (lo hi : ℚ) (evs : List TEvent) : Bool :=
  evs.all fun e =>
    !e.isDown || (decide (lo ≤ e.delayBefore) && decide (e.delayBefore ≤ hi))

/-- Every button-up of the list was posted with no delay. -/
def upsImmediate (evs : List TEvent) : Bool :=
  evs.all fun e => e.isDown || decide (e.delayBefore = 0)

/-- Freshly constructed trigger bot: disabled, not holding. -/
def initState : TriggerState := ⟨false, false, false⟩

/-- Interaction sequence of the reticle scenario: enable, target
acquired, target lost, disable. -/
def demoOps : List TOp :=
  [TOp.enable true, TOp.tick (some true) true 100,
   TOp.tick (some false) true 120, TOp.disable true]

end TriggerBot

open MacroEngine

/-- C1: for every pair of consecutive ammo snapshots and every slot `s`,
the shot-detection step (`_was_shot_fired`) reports a shot for `s` exactly
when `s` is present in both the new and the previous snapshot with a
strictly smaller clip in the new one; equal or increased clip (e.g. a
reload) never counts as a shot. -/
theorem c1_shot_detected_iff_clip_decreased
    (st : MacroState) (w : Nat) (ad : AmmoData) :
    was_shot_fired st w ad = true ↔
      ∃ clip res oldClip oldRes,
        ad.lookup w = some (clip, res) ∧
        st.lastAmmo.lookup w = some (oldClip, oldRes) ∧
        clip < oldClip := by
  unfold was_shot_fired
  rcases h1 : ad.lookup w with _ | ⟨c, r⟩ <;>
    rcases h2 : st.lastAmmo.lookup w with _ | ⟨c0, r0⟩ <;>
    simp [h1, h2]

/-- C7: calling `set_active_preset` with the name of the currently active
preset is not a no-op — it keeps the active preset but resets all rotation
cursors, so every slot's effective cursor is back at rule index 0 with 0
shots used. -/
theorem c7_set_same_preset_resets_cursors
    (st : MacroState) (name : String)
    (hmem : (st.presets.lookup name).isSome = true)
    (hcur : st.currentPreset = some name) :
    (set_active_preset st name).1.currentPreset = st.currentPreset ∧
    (set_active_preset st name).1.ruleRotation = [] ∧
    ∀ w, effCursor (set_active_preset st name).1 w = ⟨0, 0⟩ := by
  simp [set_active_preset, hmem, hcur, effCursor, List.lookup]

/-- Witness for C7 at a concrete state whose rotation cursor is not at the
origin, showing the reset is an actual side effect. -/
theorem c7_witness :
    (set_active_preset presetDemoState "alpha").1.currentPreset =
      presetDemoState.currentPreset ∧
    (set_active_preset presetDemoState "alpha").1.ruleRotation = [] ∧
    effCursor (set_active_preset presetDemoState "alpha").1 1 = ⟨0, 0⟩ :=
  have h := c7_set_same_preset_resets_cursors presetDemoState "alpha"
    (by decide) rfl
  ⟨h.1, h.2.1, h.2.2 1⟩

/-- C8 counterexample: calling `set_active_preset` with a name that is not
among the loaded presets does NOT return a NotFound error — the source
returns Python `None` on this path (just as on success), so the second
component is `none` rather than any `some` error; the state is indeed left
unchanged. -/
theorem c8_counterexample :
    (set_active_preset presetDemoState "missing").2 = none ∧
    (set_active_preset presetDemoState "missing").1 = presetDemoState := by
  constructor <;> rfl

/-- C8 (amended): calling `set_active_preset` with a name that is not
among the loaded presets only logs a warning; it returns no error
indication to the caller (the same `None` as on success) and leaves the
engine state unchanged — the active preset and all rotation cursors are
exactly as before the call. -/
theorem c8_unknown_preset_logs_only
    (st : MacroState) (name : String)
    (h : st.presets.lookup name = none) :
    set_active_preset st name = (st, none) := by
  simp [set_active_preset, h]

/-- Witness for C8 at a concrete state and unknown preset name. -/
theorem c8_witness :
    set_active_preset presetDemoState "missing" = (presetDemoState, none) :=
  c8_unknown_preset_logs_only presetDemoState "missing" (by decide)

/-- Helper: a non-nil list has `isEmpty = false`. -/
lemma isEmptyFalse {α : Type} {l : List α} (h : l ≠ []) :
    l.isEmpty = false := by
  cases l with
  | nil => exact absurd rfl h
  | cons a t => rfl

/-- Helper: a slot absent from the cached snapshot has no ammo. -/
lemma hasAmmo_of_absent {st : MacroState} {v : Nat}
    (h : st.lastAmmo.lookup v = none) : has_ammo st v = false := by
  simp [has_ammo, h]

/-- Helper: shape of `handle_shot` when the ammo gate fails for the rule's
target but the configured fallback has ammo — the swap is retargeted at
the fallback slot with the fallback quick-switch flag, and the cursor
advances by the original rule's `repeat_count`. -/
lemma handleShot_fallback_swap
    (st : MacroState) (w : Nat) (rules : List SwapRule) (r : SwapRule)
    (i c : Nat)
    (hp : presetRules st = some rules)
    (hm : matchingRules rules w ≠ [])
    (hcur : effCursor st w = ⟨i, c⟩)
    (hr : (matchingRules rules w)[i]? = some r)
    (hca : r.checkAmmo = true)
    (hta : has_ammo st r.toSlot = false)
    (hfb : 0 < r.fallbackTo)
    (hfa : has_ammo st r.fallbackTo = true) :
    handle_shot st w =
      some (putCursor st w
        (if r.repeatCount ≤ c + 1
         then ⟨(i + 1) % (matchingRules rules w).length, 0⟩
         else ⟨i, c + 1⟩),
        some (r.fallbackTo, r.fallbackQuickSwitch)) := by
  simp [handle_shot, hp, isEmptyFalse hm, hcur, hr, hca, hta, hfb, hfa,
    doSwap]

/-- Helper: shape of `handle_shot` when the ammo gate fails and no usable
fallback exists — no action, counter reset, rule index advanced by one
modulo the group size. -/
lemma handleShot_gate_abort
    (st : MacroState) (w : Nat) (rules : List SwapRule) (r : SwapRule)
    (i c : Nat)
    (hp : presetRules st = some rules)
    (hm : matchingRules rules w ≠ [])
    (hcur : effCursor st w = ⟨i, c⟩)
    (hr : (matchingRules rules w)[i]? = some r)
    (hca : r.checkAmmo = true)
    (hta : has_ammo st r.toSlot = false)
    (hnf : r.fallbackTo = 0 ∨ has_ammo st r.fallbackTo = false) :
    handle_shot st w =
      some (putCursor st w ⟨(i + 1) % (matchingRules rules w).length, 0⟩,
        none) := by
  rcases hnf with h0 | hfe
  · simp [handle_shot, hp, isEmptyFalse hm, hcur, hr, hca, hta, h0]
  · by_cases hf : 0 < r.fallbackTo
    · simp [handle_shot, hp, isEmptyFalse hm, hcur, hr, hca, hta, hf, hfe]
    · have h0 : r.fallbackTo = 0 := Nat.eq_zero_of_not_pos hf
      simp [handle_shot, hp, isEmptyFalse hm, hcur, hr, hca, hta, h0]

/-- C3: when the current rule has `check_ammo` set, its target slot has
clip 0 in the last snapshot, and its configured fallback slot has a
positive clip, the emitted swap targets the fallback slot with the rule's
`fallback_quick_switch` as the effective quick-switch flag, while the
rotation cursor's shot counter and advancement still follow the
`repeat_count` of the original rule. -/
theorem c3_fallback_targets_fallback_slot
    (st : MacroState) (w : Nat) (rules : List SwapRule) (r : SwapRule)
    (i c : Nat) (res cf rf : Int)
    (hp : presetRules st = some rules)
    (hm : matchingRules rules w ≠ [])
    (hcur : effCursor st w = ⟨i, c⟩)
    (hr : (matchingRules rules w)[i]? = some r)
    (hca : r.checkAmmo = true)
    (hto : st.lastAmmo.lookup r.toSlot = some (0, res))
    (hfb : 0 < r.fallbackTo)
    (hfa : st.lastAmmo.lookup r.fallbackTo = some (cf, rf))
    (hcf : 0 < cf) :
    handle_shot st w =
      some (putCursor st w
        (if r.repeatCount ≤ c + 1
         then ⟨(i + 1) % (matchingRules rules w).length, 0⟩
         else ⟨i, c + 1⟩),
        some (r.fallbackTo, r.fallbackQuickSwitch)) :=
  handleShot_fallback_swap st w rules r i c hp hm hcur hr hca
    (by simp [has_ammo, hto]) hfb (by simp [has_ammo, hfa, hcf])

/-- Witness for C3 at the concrete fallback scenario `{from: 1, to: 5,
check_ammo: true, fallback_to: 2}` with clip(5) = 0 and clip(2) = 5: the
emitted swap targets slot 2. -/
theorem c3_witness :
    handle_shot fbState 1 =
      some (putCursor fbState 1
        (if fbRule.repeatCount ≤ 0 + 1
         then ⟨(0 + 1) % (matchingRules [fbRule] 1).length, 0⟩
         else ⟨0, 0 + 1⟩),
        some (fbRule.fallbackTo, fbRule.fallbackQuickSwitch)) :=
  c3_fallback_targets_fallback_slot fbState 1 [fbRule] fbRule 0 0 3 5 0
    rfl (by decide) rfl rfl rfl rfl (by decide) rfl (by decide)

/-- C4: when the current rule has `check_ammo` set, its target slot has
clip 0, and no fallback is configured (or the configured fallback is also
out of ammo), no key action is emitted for that shot, the cursor's
`counter` is reset to 0 and its rule index advances by one modulo the
number of matching rules. -/
theorem c4_empty_no_fallback_aborts
    (st : MacroState) (w : Nat) (rules : List SwapRule) (r : SwapRule)
    (i c : Nat)
    (hp : presetRules st = some rules)
    (hm : matchingRules rules w ≠ [])
    (hcur : effCursor st w = ⟨i, c⟩)
    (hr : (matchingRules rules w)[i]? = some r)
    (hca : r.checkAmmo = true)
    (hta : has_ammo st r.toSlot = false)
    (hnf : r.fallbackTo = 0 ∨ has_ammo st r.fallbackTo = false) :
    handle_shot st w =
      some (putCursor st w ⟨(i + 1) % (matchingRules rules w).length, 0⟩,
        none) :=
  handleShot_gate_abort st w rules r i c hp hm hcur hr hca hta hnf

/-- Witness for C4 at the concrete abort scenario: ammo-checked rule to
empty slot 5 with no fallback configured. -/
theorem c4_witness :
    handle_shot abortState 1 =
      some (putCursor abortState 1
        ⟨(0 + 1) % (matchingRules [abortRule] 1).length, 0⟩, none) :=
  c4_empty_no_fallback_aborts abortState 1 [abortRule] abortRule 0 0
    rfl (by decide) rfl rfl rfl (by decide) (Or.inl rfl)

/-- C10: a slot absent from the last received snapshot is treated as out
of ammo by `_has_ammo`, and consequently a `check_ammo` rule whose target
slot never appeared in any snapshot never emits a direct swap to that
slot — the shot takes the fallback or abort path instead. -/
theorem c10_absent_slot_never_direct_swap
    (st : MacroState) (w : Nat) (rules : List SwapRule) (r : SwapRule)
    (i c : Nat)
    (hp : presetRules st = some rules)
    (hm : matchingRules rules w ≠ [])
    (hcur : effCursor st w = ⟨i, c⟩)
    (hr : (matchingRules rules w)[i]? = some r)
    (hca : r.checkAmmo = true)
    (habs : st.lastAmmo.lookup r.toSlot = none) :
    has_ammo st r.toSlot = false ∧
    ∀ out, handle_shot st w = some out →
      ∀ qs, out.2 ≠ some (r.toSlot, qs) := by
  have hta : has_ammo st r.toSlot = false := hasAmmo_of_absent habs
  refine ⟨hta, ?_⟩
  intro out hout qs
  by_cases hf : 0 < r.fallbackTo
  · by_cases hfa : has_ammo st r.fallbackTo = true
    · have hne : r.fallbackTo ≠ r.toSlot := by
        intro he
        rw [he, hta] at hfa
        exact Bool.false_ne_true hfa
      rw [handleShot_fallback_swap st w rules r i c hp hm hcur hr hca hta
        hf hfa] at hout
      cases hout
      simp [hne]
    · have hfe : has_ammo st r.fallbackTo = false :=
        Bool.eq_false_iff.mpr hfa
      rw [handleShot_gate_abort st w rules r i c hp hm hcur hr hca hta
        (Or.inr hfe)] at hout
      cases hout
      simp
  · have h0 : r.fallbackTo = 0 := Nat.eq_zero_of_not_pos hf
    rw [handleShot_gate_abort st w rules r i c hp hm hcur hr hca hta
      (Or.inl h0)] at hout
    cases hout
    simp

/-- Witness for C10 at the concrete absent-slot scenario: slot 6 never
appeared in a snapshot, and the shot's outcome is not a swap to slot 6. -/
theorem c10_witness :
    has_ammo ghostState 6 = false ∧
    (putCursor ghostState 1 ⟨(0 + 1) % 1, 0⟩,
      (none : Option SwapAction)).2 ≠ some (6, false) :=
  have h := c10_absent_slot_never_direct_swap ghostState 1 [ghostRule]
    ghostRule 0 0 rfl (by decide) rfl rfl rfl rfl
  ⟨h.1, h.2 (putCursor ghostState 1 ⟨(0 + 1) % 1, 0⟩, none) (by decide) false⟩

/-- Helper: writing a cursor twice keeps only the second write. -/
lemma putCursor_putCursor (st : MacroState) (w : Nat) (r1 r2 : Rotation) :
    putCursor (putCursor st w r1) w r2 = putCursor st w r2 := by
  simp [putCursor, upsert, List.eraseP_cons_of_pos]

/-- Helper: reading back a just-written cursor. -/
lemma effCursor_putCursor (st : MacroState) (w : Nat) (rot : Rotation) :
    effCursor (putCursor st w rot) w = rot := by
  simp [effCursor, putCursor, upsert, List.lookup]

/-- Helper: shape of `handle_shot` when the ammo gate passes (the rule
does not check ammo, or its target has clip > 0): the swap goes to the
rule's own target with its own quick-switch flag and the cursor advances
according to `repeat_count`. -/
lemma handleShot_gate_pass
    (st : MacroState) (w : Nat) (rules : List SwapRule) (r : SwapRule)
    (i c : Nat)
    (hp : presetRules st = some rules)
    (hm : matchingRules rules w ≠ [])
    (hcur : effCursor st w = ⟨i, c⟩)
    (hr : (matchingRules rules w)[i]? = some r)
    (hgate : r.checkAmmo = true → has_ammo st r.toSlot = true) :
    handle_shot st w =
      some (putCursor st w
        (if r.repeatCount ≤ c + 1
         then ⟨(i + 1) % (matchingRules rules w).length, 0⟩
         else ⟨i, c + 1⟩),
        some (r.toSlot, r.quickSwitch)) := by
  cases hca : r.checkAmmo with
  | false => simp [handle_shot, hp, isEmptyFalse hm, hcur, hr, hca, doSwap]
  | true =>
    simp [handle_shot, hp, isEmptyFalse hm, hcur, hr, hca, hgate hca, doSwap]

/-- Helper: splitting a shot run into two consecutive runs. -/
lemma runShots_add (w m n : Nat) :
    ∀ st : MacroState,
      runShots st w (m + n) =
        (runShots st w m).bind fun p =>
          (runShots p.1 w n).map fun q => (q.1, p.2 ++ q.2) := by
  induction m with
  | zero =>
    intro st
    rw [Nat.zero_add]
    cases h : runShots st w n <;> simp [runShots, h]
  | succ m ih =>
    intro st
    rw [show m + 1 + n = (m + n) + 1 from by omega]
    simp only [runShots]
    cases hh : handle_shot st w with
    | none => simp
    | some p =>
      simp only [Option.some_bind]
      rw [ih p.1]
      cases h1 : runShots p.1 w m with
      | none => simp
      | some q =>
        cases h2 : runShots q.1 w n <;>
          simp [h2, List.append_assoc]

/-- Helper: a full block of one rule — starting at its cursor with `j + 1`
shots left before `repeat_count` is exhausted, the next `j + 1` shots all
emit that rule's swap and end with the cursor advanced to the next rule. -/
lemma runShots_rule_block (w : Nat) (rules : List SwapRule) (r : SwapRule)
    (i : Nat) :
    ∀ (j c : Nat) (st : MacroState),
      presetRules st = some rules →
      matchingRules rules w ≠ [] →
      effCursor st w = ⟨i, c⟩ →
      (matchingRules rules w)[i]? = some r →
      (r.checkAmmo = true → has_ammo st r.toSlot = true) →
      c + (j + 1) = r.repeatCount →
      runShots st w (j + 1) =
        some (putCursor st w ⟨(i + 1) % (matchingRules rules w).length, 0⟩,
          List.replicate (j + 1) (r.toSlot, r.quickSwitch)) := by
  intro j
  induction j with
  | zero =>
    intro c st hp hm hcur hr hgate hc
    have hpass := handleShot_gate_pass st w rules r i c hp hm hcur hr hgate
    rw [if_pos (show r.repeatCount ≤ c + 1 from by omega)] at hpass
    simp [runShots, hpass]
  | succ j ih =>
    intro c st hp hm hcur hr hgate hc
    have hpass := handleShot_gate_pass st w rules r i c hp hm hcur hr hgate
    rw [if_neg (show ¬r.repeatCount ≤ c + 1 from by omega)] at hpass
    have hnext := ih (c + 1) (putCursor st w ⟨i, c + 1⟩) hp hm
      (effCursor_putCursor st w ⟨i, c + 1⟩) hr hgate (by omega)
    rw [show runShots st w (j + 1 + 1) =
        (handle_shot st w).bind (fun p =>
          (runShots p.1 w (j + 1)).map fun q => (q.1, p.2.toList ++ q.2))
      from rfl]
    rw [hpass, Option.some_bind, hnext, putCursor_putCursor]
    simp [List.replicate_succ]

/-- Helper: the number of repeats of a rule group splits off its head. -/
lemma totalRepeats_cons (r : SwapRule) (l : List SwapRule) :
    totalRepeats (r :: l) = r.repeatCount + totalRepeats l := by
  simp [totalRepeats]

/-- Helper: running all remaining shots of one rotation cycle from the
start of rule `i` visits each remaining rule `repeat_count` consecutive
times in definition order and wraps the cursor back to the origin. -/
lemma runShots_cycle_from (w : Nat) (rules : List SwapRule) :
    ∀ (k i : Nat) (st : MacroState),
      presetRules st = some rules →
      matchingRules rules w ≠ [] →
      effCursor st w = ⟨i, 0⟩ →
      i + (k + 1) = (matchingRules rules w).length →
      (∀ r ∈ matchingRules rules w, 1 ≤ r.repeatCount) →
      (∀ r ∈ matchingRules rules w, r.checkAmmo = true →
        has_ammo st r.toSlot = true) →
      runShots st w (totalRepeats ((matchingRules rules w).drop i)) =
        some (putCursor st w ⟨0, 0⟩,
          cycleActions ((matchingRules rules w).drop i)) := by
  intro k
  induction k with
  | zero =>
    intro i st hp hm hcur hlen hrep hgate
    have hi : i < (matchingRules rules w).length := by omega
    have hr : (matchingRules rules w)[i]? =
        some (matchingRules rules w)[i] := List.getElem?_eq_getElem hi
    have hrm : (matchingRules rules w)[i] ∈ matchingRules rules w :=
      List.getElem_mem hi
    have h1 : 1 ≤ (matchingRules rules w)[i].repeatCount :=
      hrep _ hrm
    have hdrop : (matchingRules rules w).drop i =
        [(matchingRules rules w)[i]] := by
      rw [List.drop_eq_getElem_cons hi,
        List.drop_eq_nil_of_le (by omega)]
    have hblock := runShots_rule_block w rules (matchingRules rules w)[i]
      i ((matchingRules rules w)[i].repeatCount - 1) 0 st hp hm hcur hr
      (hgate _ hrm) (by omega)
    rw [show (matchingRules rules w)[i].repeatCount - 1 + 1 =
      (matchingRules rules w)[i].repeatCount from by omega] at hblock
    rw [show (i + 1) % (matchingRules rules w).length = 0 from by
      rw [show i + 1 = (matchingRules rules w).length from by omega]
      exact Nat.mod_self _] at hblock
    rw [hdrop]
    simpa [totalRepeats, cycleActions] using hblock
  | succ k ih =>
    intro i st hp hm hcur hlen hrep hgate
    have hi : i < (matchingRules rules w).length := by omega
    have hr : (matchingRules rules w)[i]? =
        some (matchingRules rules w)[i] := List.getElem?_eq_getElem hi
    have hrm : (matchingRules rules w)[i] ∈ matchingRules rules w :=
      List.getElem_mem hi
    have h1 : 1 ≤ (matchingRules rules w)[i].repeatCount :=
      hrep _ hrm
    have hdrop : (matchingRules rules w).drop i =
        (matchingRules rules w)[i] :: (matchingRules rules w).drop (i + 1) :=
      List.drop_eq_getElem_cons hi
    have hblock := runShots_rule_block w rules (matchingRules rules w)[i]
      i ((matchingRules rules w)[i].repeatCount - 1) 0 st hp hm hcur hr
      (hgate _ hrm) (by omega)
    rw [show (matchingRules rules w)[i].repeatCount - 1 + 1 =
      (matchingRules rules w)[i].repeatCount from by omega] at hblock
    rw [Nat.mod_eq_of_lt (show i + 1 < (matchingRules rules w).length
      from by omega)] at hblock
    have hrest := ih (i + 1) (putCursor st w ⟨i + 1, 0⟩) hp hm
      (effCursor_putCursor st w ⟨i + 1, 0⟩) (by omega) hrep hgate
    rw [hdrop, totalRepeats_cons,
      runShots_add w (matchingRules rules w)[i].repeatCount
        (totalRepeats ((matchingRules rules w).drop (i + 1))) st,
      hblock, Option.some_bind, hrest, putCursor_putCursor]
    simp [cycleActions]

/-- C2: for every slot with a non-empty matching rule group, repeat counts
at least 1, and the ammo gate never failing, one full cycle of consecutive
detected shots applies the matching rules in preset-definition order, each
rule exactly `repeat_count` consecutive times, and wraps the cursor back
to the origin; in particular, in the two-rule scenario
`{to: 2, repeat_count: 2}`, `{to: 4, repeat_count: 1}` for slot 1, four
shots with ammo always available produce swap targets `[2, 2, 4, 2]`. -/
theorem c2_rotation_visits_rules_in_order
    (st : MacroState) (w : Nat) (rules : List SwapRule)
    (hp : presetRules st = some rules)
    (hm : matchingRules rules w ≠ [])
    (hcur : effCursor st w = ⟨0, 0⟩)
    (hrep : ∀ r ∈ matchingRules rules w, 1 ≤ r.repeatCount)
    (hgate : ∀ r ∈ matchingRules rules w, r.checkAmmo = true →
      has_ammo st r.toSlot = true) :
    (runShots st w (totalRepeats (matchingRules rules w)) =
      some (putCursor st w ⟨0, 0⟩, cycleActions (matchingRules rules w))) ∧
    shotTargets demoState 1 4 = some [2, 2, 4, 2] := by
  constructor
  · have hN : 0 < (matchingRules rules w).length := List.length_pos.mpr hm
    have := runShots_cycle_from w rules
      ((matchingRules rules w).length - 1) 0 st hp hm hcur (by omega)
      hrep hgate
    simpa using this
  · rfl

/-- Witness for C2 at the concrete two-rule scenario state. -/
theorem c2_witness :
    (runShots demoState 1 (totalRepeats (matchingRules demoRules 1)) =
      some (putCursor demoState 1 ⟨0, 0⟩,
        cycleActions (matchingRules demoRules 1))) ∧
    shotTargets demoState 1 4 = some [2, 2, 4, 2] :=
  c2_rotation_visits_rules_in_order demoState 1 demoRules rfl (by decide)
    rfl (by decide) (by decide)

/-- C9: whenever an enabled engine with a truthy active preset completes a
tick (`update` does not raise), the stored `last_ammo` equals the new
snapshot and the stored `last_weapon_id` equals the current slot
determined for that tick, whether or not a shot was detected. -/
theorem c9_update_refreshes_cache
    (st : MacroState) (ad : AmmoData) (cw : Option Nat) (st' : MacroState)
    (hen : st.enabled = true)
    (hp : presetTruthy st.currentPreset = true)
    (hu : update st ad cw = some st') :
    st'.lastAmmo = ad ∧
    st'.lastWeaponId = cw.getD (detect_current_weapon st ad) := by
  unfold update at hu
  rw [hen, hp] at hu
  simp only [Bool.not_true, Bool.or_self, Bool.false_or, if_false] at hu
  rcases hm : (if was_shot_fired st (cw.getD (detect_current_weapon st ad))
      ad then handle_shot st (cw.getD (detect_current_weapon st ad))
      else some (st, none)) with _ | ⟨st1, act⟩ <;> rw [hm] at hu
  · exact absurd hu (by simp)
  · cases hu
    exact ⟨rfl, rfl⟩

/-- Witness for C9: a concrete completed tick on `demoState` with a
snapshot where slot 1 fired. -/
theorem c9_witness :
    (putCursor { demoState with lastAmmo := demoSnapshot } 1
        ⟨0, 1⟩).lastAmmo = demoSnapshot ∧
    (putCursor { demoState with lastAmmo := demoSnapshot } 1
        ⟨0, 1⟩).lastWeaponId =
      (none : Option Nat).getD (detect_current_weapon demoState demoSnapshot) := by
  have h := c9_update_refreshes_cache demoState demoSnapshot none
    (putCursor { demoState with lastAmmo := demoSnapshot } 1 ⟨0, 1⟩)
    rfl rfl (by decide)
  exact h

/-- C5 counterexample: the claim demands that a null pointer aborts chain
resolution with "unavailable", but `follow_pointer_chain` only aborts when
`read_pointer` returns `None` — a successfully read null pointer (value 0)
does not abort. In a memory where every pointer read succeeds with value
0, a one-step chain with offset 5 resolves to address 5 instead of the
claimed "unavailable". -/
theorem c5_counterexample :
    MemoryReader.follow_pointer_chain MemoryReader.readPZero true 0
      (some 0) [5] = some 5 ∧
    MemoryReader.resolveChainClaimed MemoryReader.readPZero true 0
      (some 0) [5] = none :=
  ⟨rfl, rfl⟩

/-- Helper: with no null pointer readable anywhere, the source walk and
the claimed null-aborting walk agree. -/
lemma chainWalk_eq_nullAborting (readP : Int → Option Int)
    (h : ∀ a p, readP a = some p → p ≠ 0) :
    ∀ (offs : List Int) (addr : Int),
      MemoryReader.chainWalk readP addr offs =
        MemoryReader.chainWalkNullAborting readP addr offs := by
  intro offs
  induction offs with
  | nil => intro addr; rfl
  | cons off rest ih =>
    intro addr
    simp only [MemoryReader.chainWalk, MemoryReader.chainWalkNullAborting]
    cases hq : readP addr with
    | none => rfl
    | some p =>
      dsimp only
      rw [if_neg (h addr p hq)]
      exact ih (p + off)

/-- C5 (amended): resolution computes `moduleBase + baseOffset`, then for
each step reads a pointer at the current address — aborting and yielding
"unavailable" as soon as a pointer is unreadable (a successfully read
null pointer does NOT abort by itself; the walk continues from
`0 + offset`) — then adds the step's offset, and the final address is
returned without a trailing dereference. Whenever no pointer read can
yield null, this coincides with the claimed null-aborting resolution. -/
theorem c5_chain_resolution_aborts_on_unreadable_only
    (readP : Int → Option Int) (conn : Bool) (mb : Int)
    (base : Option Int) (offs : List Int)
    (h : ∀ a p, readP a = some p → p ≠ 0) :
    MemoryReader.follow_pointer_chain readP conn mb base offs =
      MemoryReader.resolveChainClaimed readP conn mb base offs := by
  unfold MemoryReader.follow_pointer_chain MemoryReader.resolveChainClaimed
  cases conn with
  | false => rfl
  | true =>
    cases base with
    | none => rfl
    | some b =>
      simpa using chainWalk_eq_nullAborting readP h offs (mb + b)

/-- Witness for C5 at a memory whose pointer reads always yield 1. -/
theorem c5_witness :
    MemoryReader.follow_pointer_chain MemoryReader.readPOne true 0
      (some 4) [2, 3] =
    MemoryReader.resolveChainClaimed MemoryReader.readPOne true 0
      (some 4) [2, 3] :=
  c5_chain_resolution_aborts_on_unreadable_only MemoryReader.readPOne
    true 0 (some 4) [2, 3]
    (fun a p hp => by
      simp [MemoryReader.readPOne] at hp
      omega)

open TriggerBot

/-- Helper: alternation over a concatenation splits at the intermediate
holding parity. -/
lemma altFrom_append (h : Bool) (xs ys : List TEvent) :
    altFrom h (xs ++ ys) = (altFrom h xs && altFrom (altEnd h xs) ys) := by
  induction xs generalizing h with
  | nil => simp [altFrom, altEnd]
  | cons e t ih => simp [altFrom, altEnd, ih, Bool.and_assoc]

/-- Helper: holding parity after a concatenation. -/
lemma altEnd_append (h : Bool) (xs ys : List TEvent) :
    altEnd h (xs ++ ys) = altEnd (altEnd h xs) ys := by
  induction xs generalizing h with
  | nil => rfl
  | cons e t ih => simp [altEnd, ih]

/-- Helper: a single trigger-bot interaction emits an event list that
alternates from the current holding parity, leaves `is_holding` at the
final parity, keeps every button-down delay within the sampling bounds,
and posts every button-up with no delay. -/
lemma applyOp_step (lo hi : ℚ) (st : TriggerState) (op : TOp)
    (hop : opDelayOk lo hi op = true) :
    altFrom st.isHolding (applyOp st op).2 = true ∧
    (applyOp st op).1.isHolding = altEnd st.isHolding (applyOp st op).2 ∧
    downDelaysOk lo hi (applyOp st op).2 = true ∧
    upsImmediate (applyOp st op).2 = true := by
  cases op with
  | tick r wOk d =>
    rcases st with ⟨en, hold, ls⟩
    cases en <;> rcases r with _ | (_ | _) <;> cases hold <;> cases wOk <;>
      simp_all [applyOp, TriggerBot.update, press_mouse, release_mouse,
        altFrom, altEnd, downDelaysOk, upsImmediate, opDelayOk]
  | disable wOk =>
    rcases st with ⟨en, hold, ls⟩
    cases hold <;> cases wOk <;>
      simp [applyOp, TriggerBot.disable, release_mouse, altFrom, altEnd,
        downDelaysOk, upsImmediate]
  | enable f =>
    rcases st with ⟨en, hold, ls⟩
    cases f <;>
      simp [applyOp, TriggerBot.enable, altFrom, altEnd, downDelaysOk,
        upsImmediate]

/-- Helper: the invariant of `applyOp_step` extends to whole interaction
sequences. -/
lemma runOps_invariant (lo hi : ℚ) :
    ∀ (ops : List TOp) (st : TriggerState),
      ops.all (opDelayOk lo hi) = true →
      altFrom st.isHolding (runOps st ops).2 = true ∧
      (runOps st ops).1.isHolding = altEnd st.isHolding (runOps st ops).2 ∧
      downDelaysOk lo hi (runOps st ops).2 = true ∧
      upsImmediate (runOps st ops).2 = true := by
  intro ops
  induction ops with
  | nil =>
    intro st h
    simp [runOps, altFrom, altEnd, downDelaysOk, upsImmediate]
  | cons op rest ih =>
    intro st hall
    rw [List.all_cons, Bool.and_eq_true] at hall
    obtain ⟨hop, hrest⟩ := hall
    have h1 := applyOp_step lo hi st op hop
    have h2 := ih (applyOp st op).1 hrest
    simp only [runOps]
    refine ⟨?_, ?_, ?_, ?_⟩
    · rw [altFrom_append, h1.1, Bool.true_and, ← h1.2.1]
      exact h2.1
    · rw [altEnd_append, ← h1.2.1]
      exact h2.2.1
    · simp only [downDelaysOk, List.all_append, Bool.and_eq_true]
      exact ⟨h1.2.2.1, h2.2.2.1⟩
    · simp only [upsImmediate, List.all_append, Bool.and_eq_true]
      exact ⟨h1.2.2.2, h2.2.2.2⟩

/-- C6: over every sequence of trigger-bot ticks, disables and enables
starting from a non-holding state, the emitted mouse events strictly
alternate between button-down and button-up (never two downs without an
intervening up); every button-down is delayed by the reaction delay
sampled for its tick — hence within the sampling bounds — and every
button-up is posted with no randomized delay. -/
theorem c6_trigger_events_alternate
    (st : TriggerState) (ops : List TOp) (lo hi : ℚ)
    (h0 : st.isHolding = false)
    (hd : ops.all (opDelayOk lo hi) = true) :
    altFrom false (runOps st ops).2 = true ∧
    downDelaysOk lo hi (runOps st ops).2 = true ∧
    upsImmediate (runOps st ops).2 = true := by
  have h := runOps_invariant lo hi ops st hd
  rw [h0] at h
  exact ⟨h.1, h.2.2.1, h.2.2.2⟩

/-- Witness for C6 at the concrete reticle scenario: enable, acquire
(sampled delay 100 within 50..150), lose, disable. -/
theorem c6_witness :
    altFrom false (runOps initState demoOps).2 = true ∧
    downDelaysOk 50 150 (runOps initState demoOps).2 = true ∧
    upsImmediate (runOps initState demoOps).2 = true :=
  c6_trigger_events_alternate initState demoOps 50 150 rfl (by decide)

end AutoGun
